import Mathlib

/-!
Verification of the reference-integrity engine of dao-ai-builder.

The development embeds, at value level, the TypeScript sources
`frontend/src/utils/dependency-check.ts` (reference classification,
expanded-object matching, per-category dependency finders) and the
safe-delete utility (`validateConfig`, `validateDeletion`, `safeDelete`).
Documents are JSON-serializable trees; they are modelled by the `Json`
inductive below, with JavaScript objects as ordered association lists
(insertion order), which is the order `Object.entries` iterates and the
order `JSON.stringify` serializes.

The YAML serializer (`generateYAML`) and parser (`yaml.load`) are not part
of the embedded sources; the round trip they perform is modelled from the
specification's description of the Document Serializer (anchors for
defined components, aliases at reference sites, an "undefined alias"
failure when an alias no longer resolves).
-/

/-- A JSON-serializable value: the shape of every component value in a
Document. Objects are ordered association lists, mirroring JavaScript
object insertion order. -/
inductive Json where
  | nul
  | b (x : Bool)
  | num (n : Int)
  | str (s : String)
  | arr (elems : List Json)
  | obj (members : List (String × Json))

mutual

/-- Structural equality on `Json`, written as a recursion so that the
`DecidableEq` instance below evaluates on concrete documents. -/
def jeq : Json → Json → Bool
  | .nul, .nul => true
  | .b x, .b y => x == y
  | .num n, .num m => n == m
  | .str s, .str t => s == t
  | .arr xs, .arr ys => jeqArr xs ys
  | .obj xs, .obj ys => jeqObj xs ys
  | _, _ => false

/-- Elementwise `jeq` on array elements. -/
def jeqArr : List Json → List Json → Bool
  | [], [] => true
  | x :: xs, y :: ys => jeq x y && jeqArr xs ys
  | _, _ => false

/-- Elementwise `jeq` on object members (keys compared in order). -/
def jeqObj : List (String × Json) → List (String × Json) → Bool
  | [], [] => true
  | (k, v) :: xs, (l, w) :: ys => k == l && jeq v w && jeqObj xs ys
  | _, _ => false

end

mutual

/-- The recursive comparison decides equality of `Json` values. -/
def jeq_iff : ∀ a b : Json, jeq a b = true ↔ a = b
  | .nul, .nul => by simp [jeq]
  | .b _, .b _ => by simp [jeq]
  | .num _, .num _ => by simp [jeq]
  | .str _, .str _ => by simp [jeq]
  | .arr xs, .arr ys => by simp [jeq, jeqArr_iff xs ys]
  | .obj xs, .obj ys => by simp [jeq, jeqObj_iff xs ys]
  | .nul, .b _ | .nul, .num _ | .nul, .str _ | .nul, .arr _ | .nul, .obj _
  | .b _, .nul | .b _, .num _ | .b _, .str _ | .b _, .arr _ | .b _, .obj _
  | .num _, .nul | .num _, .b _ | .num _, .str _ | .num _, .arr _ | .num _, .obj _
  | .str _, .nul | .str _, .b _ | .str _, .num _ | .str _, .arr _ | .str _, .obj _
  | .arr _, .nul | .arr _, .b _ | .arr _, .num _ | .arr _, .str _ | .arr _, .obj _
  | .obj _, .nul | .obj _, .b _ | .obj _, .num _ | .obj _, .str _ | .obj _, .arr _ => by
    simp [jeq]

/-- List version of `jeq_iff` for array elements. -/
def jeqArr_iff : ∀ xs ys : List Json, jeqArr xs ys = true ↔ xs = ys
  | [], [] => by simp [jeqArr]
  | [], _ :: _ => by simp [jeqArr]
  | _ :: _, [] => by simp [jeqArr]
  | x :: xs, y :: ys => by simp [jeqArr, jeq_iff x y, jeqArr_iff xs ys]

/-- List version of `jeq_iff` for object members. -/
def jeqObj_iff : ∀ xs ys : List (String × Json), jeqObj xs ys = true ↔ xs = ys
  | [], [] => by simp [jeqObj]
  | [], _ :: _ => by simp [jeqObj]
  | _ :: _, [] => by simp [jeqObj]
  | (k, v) :: xs, (l, w) :: ys => by
    simp [jeqObj, jeq_iff v w, jeqObj_iff xs ys, and_assoc]

end

instance : DecidableEq Json := fun a b => decidable_of_iff _ (jeq_iff a b)

/-- JavaScript property access `j[k]` restricted to the uses the embedded
code makes of it: on an object it returns the property's value, on any
other value it yields `undefined` (`none`). -/
def jsGet (j : Json) (k : String) : Option Json :=
  match j with
  | .obj ms => (ms.find? (fun kv => kv.1 == k)).map (·.2)
  | _ => none

/-- JavaScript truthiness of a JSON value. -/
def jsTruthy : Json → Bool
  | .nul => false
  | .b x => x
  | .num n => n != 0
  | .str s => s != ""
  | .arr _ => true
  | .obj _ => true

/-- The guard `!obj || typeof obj !== 'object'` is false exactly on arrays
and objects (`null` has typeof `object` but is falsy). -/
def isObjLike : Json → Bool
  | .arr _ => true
  | .obj _ => true
  | _ => false

/-- Key lookup in a JavaScript object modelled as an association list
(`config.section?.[key]`). -/
def alookup (ms : List (String × Json)) (k : String) : Option Json :=
  (ms.find? (fun kv => kv.1 == k)).map (·.2)

/-- The JavaScript `delete obj[key]` statement on a component section. -/
def adelete (ms : List (String × Json)) (k : String) : List (String × Json) :=
  ms.filter (fun kv => kv.1 != k)

/-- ASCII lowering of one character, as `String.prototype.toLowerCase`
acts on the component-type strings the code passes in. -/
def lowerChar (c : Char) : Char :=
  if 'A' ≤ c ∧ c ≤ 'Z' then Char.ofNat (c.toNat + 32) else c

/-- Embeds `componentType.toLowerCase()`. -/
def strLower (s : String) : String := ⟨s.data.map lowerChar⟩

mutual

/-- Value-level deep copy of a JSON tree: the meaning of
`JSON.parse(JSON.stringify(x))` on a JSON-serializable value. The result
is rebuilt node by node, so it shares no structure with the input. -/
def jsonClone : Json → Json
  | .nul => .nul
  | .b x => .b x
  | .num n => .num n
  | .str s => .str s
  | .arr es => .arr (cloneArr es)
  | .obj ms => .obj (cloneObj ms)

/-- Clone of a list of array elements. -/
def cloneArr : List Json → List Json
  | [] => []
  | e :: es => jsonClone e :: cloneArr es

/-- Clone of a list of object members. -/
def cloneObj : List (String × Json) → List (String × Json)
  | [] => []
  | (k, v) :: ms => (k, jsonClone v) :: cloneObj ms

end


/-- One component section of the Document: a JavaScript object mapping
component key to component value, in insertion order. -/
abbrev Entries := List (String × Json)

/-- The `resources` section of `AppConfig`, with the sub-sections the
embedded code reads (`config.resources?.llms` and friends). `none` models
an absent (`undefined`) sub-section. -/
structure Resources where
  llms : Option Entries := none
  genie_rooms : Option Entries := none
  vector_stores : Option Entries := none
  functions : Option Entries := none
  warehouses : Option Entries := none
  connections : Option Entries := none
  databases : Option Entries := none
  tables : Option Entries := none
  volumes : Option Entries := none
deriving DecidableEq

/-- The `memory` section (`config.memory?.checkpointer`,
`config.memory?.store`). -/
structure MemoryCfg where
  checkpointer : Option Json := none
  store : Option Json := none
deriving DecidableEq

/-- The Document root (the TypeScript `AppConfig`): the sections the
embedded reference-integrity code reads and mutates. Component values and
the duck-typed `app` section are arbitrary JSON trees. -/
structure AppConfig where
  schemas : Option Entries := none
  tools : Option Entries := none
  guardrails : Option Entries := none
  agents : Option Entries := none
  prompts : Option Entries := none
  -- the source's `variables` section; `variables` is reserved in Lean
  variables_ : Option Entries := none
  service_principals : Option Entries := none
  retrievers : Option Entries := none
  middleware : Option Entries := none
  resources : Option Resources := none
  memory : Option MemoryCfg := none
  app : Option Json := none
deriving DecidableEq

/-- Deep copy of one component section. -/
def cloneEntries (ms : Entries) : Entries := cloneObj ms

/-- Deep copy of the `resources` section. -/
def cloneResources (r : Resources) : Resources where
  llms := r.llms.map cloneEntries
  genie_rooms := r.genie_rooms.map cloneEntries
  vector_stores := r.vector_stores.map cloneEntries
  functions := r.functions.map cloneEntries
  warehouses := r.warehouses.map cloneEntries
  connections := r.connections.map cloneEntries
  databases := r.databases.map cloneEntries
  tables := r.tables.map cloneEntries
  volumes := r.volumes.map cloneEntries

/-- Deep copy of the `memory` section. -/
def cloneMemory (m : MemoryCfg) : MemoryCfg where
  checkpointer := m.checkpointer.map jsonClone
  store := m.store.map jsonClone

/-- Embeds `JSON.parse(JSON.stringify(config))` from `validateDeletion`:
a value-level deep copy of the whole Document, sharing no structure with
the original. -/
def cloneConfig (c : AppConfig) : AppConfig where
  schemas := c.schemas.map cloneEntries
  tools := c.tools.map cloneEntries
  guardrails := c.guardrails.map cloneEntries
  agents := c.agents.map cloneEntries
  prompts := c.prompts.map cloneEntries
  variables_ := c.variables_.map cloneEntries
  service_principals := c.service_principals.map cloneEntries
  retrievers := c.retrievers.map cloneEntries
  middleware := c.middleware.map cloneEntries
  resources := c.resources.map cloneResources
  memory := c.memory.map cloneMemory
  app := c.app.map jsonClone

/-- A dependency record produced by the Dependency Finder
(`DependencyInfo` in `dependency-check.ts`). -/
structure DependencyInfo where
  type : String
  name : String
  field : String
deriving DecidableEq

/-- Embeds `valueContainsRef` from `dependency-check.ts`: a scalar value
contains a reference to `refKey` when it is the wrapped marker
`__REF__` + key, the alias marker `*` + key, or the bare key itself.
Non-strings never match. -/
def valueContainsRef (value : Json) (refKey : String) : Bool :=
  match value with
  | .str s =>
    if s = "__REF__" ++ refKey ∨ s = "*" ++ refKey then true
    else if s = refKey then true
    else false
  | _ => false

/-- Lifts `valueContainsRef` to a possibly-absent field (`agent.model`
may be `undefined`, which is not a string and never matches). -/
def valueContainsRefOpt (value : Option Json) (refKey : String) : Bool :=
  match value with
  | some v => valueContainsRef v refKey
  | none => false

/-- The `switch (resourceType)` of `objectMatchesKey`: the currently
configured component value for `(resourceType, refKey)`, or `none` when
the section is absent, the key is missing, or the category is not one of
the fifteen modeled ones. -/
def configuredResource (config : AppConfig) (resourceType refKey : String) : Option Json :=
  match resourceType with
  | "llm" => config.resources.bind fun r => r.llms.bind fun m => alookup m refKey
  | "schema" => config.schemas.bind fun m => alookup m refKey
  | "genie_room" => config.resources.bind fun r => r.genie_rooms.bind fun m => alookup m refKey
  | "retriever" => config.retrievers.bind fun m => alookup m refKey
  | "vector_store" => config.resources.bind fun r => r.vector_stores.bind fun m => alookup m refKey
  | "function" => config.resources.bind fun r => r.functions.bind fun m => alookup m refKey
  | "warehouse" => config.resources.bind fun r => r.warehouses.bind fun m => alookup m refKey
  | "connection" => config.resources.bind fun r => r.connections.bind fun m => alookup m refKey
  | "database" => config.resources.bind fun r => r.databases.bind fun m => alookup m refKey
  | "tool" => config.tools.bind fun m => alookup m refKey
  | "guardrail" => config.guardrails.bind fun m => alookup m refKey
  | "agent" => config.agents.bind fun m => alookup m refKey
  | "prompt" => config.prompts.bind fun m => alookup m refKey
  | "variable" => config.variables_.bind fun m => alookup m refKey
  | "service_principal" => config.service_principals.bind fun m => alookup m refKey
  | _ => none

/-- Embeds `objectMatchesKey` from `dependency-check.ts`: a candidate
value matches a configured resource when the candidate passes the object
guard, the resource exists and is truthy, and the two serialize to the
same `JSON.stringify` string — which, for JSON-serializable acyclic
values with objects in insertion order, is structural equality of the
trees including member order (`decide (obj = res)`). The `catch` fallback
to reference equality is unreachable here: `JSON.stringify` throws only
on circular values, which `Json` cannot represent. -/
def objectMatchesKey (obj : Json) (refKey : String) (config : AppConfig)
    (resourceType : String) : Bool :=
  if !(isObjLike obj) then false
  else
    match configuredResource config resourceType refKey with
    | none => false
    | some res => if !(jsTruthy res) then false else decide (obj = res)

/-- Lifts `objectMatchesKey` to a possibly-absent field (`undefined`
fails the object guard). -/
def objectMatchesKeyOpt (obj : Option Json) (refKey : String) (config : AppConfig)
    (resourceType : String) : Bool :=
  match obj with
  | some v => objectMatchesKey v refKey config resourceType
  | none => false

/-- The `// Check agents` loop of `findLlmDependencies`: one record per
agent whose `model` field holds a scalar reference to the LLM or an
expanded object equal to its configured value. -/
def llmAgentDeps (config : AppConfig) (llmKey : String) : List DependencyInfo :=
  match config.agents with
  | none => []
  | some ags => ags.filterMap fun kv =>
      if valueContainsRefOpt (jsGet kv.2 "model") llmKey
          || objectMatchesKeyOpt (jsGet kv.2 "model") llmKey config "llm"
      then some ⟨"agent", kv.1, "model"⟩ else none

/-- The `// Check guardrails` loop of `findLlmDependencies`. -/
def llmGuardrailDeps (config : AppConfig) (llmKey : String) : List DependencyInfo :=
  match config.guardrails with
  | none => []
  | some gds => gds.filterMap fun kv =>
      if valueContainsRefOpt (jsGet kv.2 "model") llmKey
          || objectMatchesKeyOpt (jsGet kv.2 "model") llmKey config "llm"
      then some ⟨"guardrail", kv.1, "model"⟩ else none

/-- The `// Check memory embedding_model` block of `findLlmDependencies`
(guarded by the truthiness of `config.memory?.store`). -/
def llmMemoryDeps (config : AppConfig) (llmKey : String) : List DependencyInfo :=
  match config.memory with
  | none => []
  | some m =>
    match m.store with
    | none => []
    | some st =>
      if jsTruthy st then
        if valueContainsRefOpt (jsGet st "embedding_model") llmKey
            || objectMatchesKeyOpt (jsGet st "embedding_model") llmKey config "llm"
        then [⟨"memory", "store", "embedding_model"⟩] else []
      else []

/-- The optional chain `config.app?.orchestration?.supervisor`. -/
def supervisorOf (config : AppConfig) : Option Json :=
  config.app.bind fun a => (jsGet a "orchestration").bind fun o => jsGet o "supervisor"

/-- The `// Check orchestration` block of `findLlmDependencies`. -/
def llmOrchDeps (config : AppConfig) (llmKey : String) : List DependencyInfo :=
  match supervisorOf config with
  | none => []
  | some sup =>
    if jsTruthy sup then
      if valueContainsRefOpt (jsGet sup "model") llmKey
          || objectMatchesKeyOpt (jsGet sup "model") llmKey config "llm"
      then [⟨"orchestration", "supervisor", "model"⟩] else []
    else []

/-- The `// Check vector stores embedding_model` loop of
`findLlmDependencies`. -/
def llmVsDeps (config : AppConfig) (llmKey : String) : List DependencyInfo :=
  match config.resources with
  | none => []
  | some r =>
    match r.vector_stores with
    | none => []
    | some vss => vss.filterMap fun kv =>
        if valueContainsRefOpt (jsGet kv.2 "embedding_model") llmKey
            || objectMatchesKeyOpt (jsGet kv.2 "embedding_model") llmKey config "llm"
        then some ⟨"vector_store", kv.1, "embedding_model"⟩ else none

/-- Embeds `findLlmDependencies` from `dependency-check.ts`: the blocks
run in source order and push onto one list. -/
def findLlmDependencies (config : AppConfig) (llmKey : String) : List DependencyInfo :=
  llmAgentDeps config llmKey ++ llmGuardrailDeps config llmKey
    ++ llmMemoryDeps config llmKey ++ llmOrchDeps config llmKey
    ++ llmVsDeps config llmKey

/-- The sixteen lower-cased component types the `switch` of
`validateDeletion` models, in source order. -/
def knownTypes : List String :=
  ["tool", "guardrail", "schema", "variable", "agent", "service principal",
   "prompt", "retriever", "llm", "genie room", "warehouse", "function",
   "connection", "database", "vector store", "middleware"]

/-- The `switch (componentType.toLowerCase())` of `validateDeletion`,
applied to the test clone: deletes the `(section, key)` entry when the
section exists, returns the updated clone; `none` is the `default` case
(unknown component type). Cases appear in source order. -/
def deleteByType (c : AppConfig) (tl k : String) : Option AppConfig :=
  if tl = "tool" then some { c with tools := c.tools.map (fun ms => adelete ms k) }
  else if tl = "guardrail" then some { c with guardrails := c.guardrails.map (fun ms => adelete ms k) }
  else if tl = "schema" then some { c with schemas := c.schemas.map (fun ms => adelete ms k) }
  else if tl = "variable" then some { c with variables_ := c.variables_.map (fun ms => adelete ms k) }
  else if tl = "agent" then some { c with agents := c.agents.map (fun ms => adelete ms k) }
  else if tl = "service principal" then
    some { c with service_principals := c.service_principals.map (fun ms => adelete ms k) }
  else if tl = "prompt" then some { c with prompts := c.prompts.map (fun ms => adelete ms k) }
  else if tl = "retriever" then some { c with retrievers := c.retrievers.map (fun ms => adelete ms k) }
  else if tl = "llm" then
    some { c with resources := c.resources.map fun r => { r with llms := r.llms.map (fun ms => adelete ms k) } }
  else if tl = "genie room" then
    some { c with resources := c.resources.map fun r => { r with genie_rooms := r.genie_rooms.map (fun ms => adelete ms k) } }
  else if tl = "warehouse" then
    some { c with resources := c.resources.map fun r => { r with warehouses := r.warehouses.map (fun ms => adelete ms k) } }
  else if tl = "function" then
    some { c with resources := c.resources.map fun r => { r with functions := r.functions.map (fun ms => adelete ms k) } }
  else if tl = "connection" then
    some { c with resources := c.resources.map fun r => { r with connections := r.connections.map (fun ms => adelete ms k) } }
  else if tl = "database" then
    some { c with resources := c.resources.map fun r => { r with databases := r.databases.map (fun ms => adelete ms k) } }
  else if tl = "vector store" then
    some { c with resources := c.resources.map fun r => { r with vector_stores := r.vector_stores.map (fun ms => adelete ms k) } }
  else if tl = "middleware" then some { c with middleware := c.middleware.map (fun ms => adelete ms k) }
  else none

mutual

/-- Modelled from the spec: the alias reference sites a serialized
Document carries. The Document Serializer (yaml-generator, not under
src/) emits the alias form at every reference site and never the
wrapped-marker form, so both the alias marker `*`+key and the editing-time
wrapped marker `__REF__`+key become aliases of that key in the emitted
text. -/
def aliasRefs : Json → List String
  | .str s =>
    match s.data with
    | '*' :: rest => [String.mk rest]
    | '_' :: '_' :: 'R' :: 'E' :: 'F' :: '_' :: '_' :: rest => [String.mk rest]
    | _ => []
  | .arr es => aliasRefsArr es
  | .obj ms => aliasRefsObj ms
  | _ => []

/-- Alias reference sites inside a list of array elements. -/
def aliasRefsArr : List Json → List String
  | [] => []
  | e :: es => aliasRefs e ++ aliasRefsArr es

/-- Alias reference sites inside a list of object members. -/
def aliasRefsObj : List (String × Json) → List String
  | [] => []
  | (_, v) :: ms => aliasRefs v ++ aliasRefsObj ms

end

/-- Keys of an optional component section. -/
def entryKeys : Option Entries → List String
  | none => []
  | some ms => ms.map (·.1)

/-- Values of an optional component section. -/
def entryVals : Option Entries → List Json
  | none => []
  | some ms => ms.map (·.2)

/-- Modelled from the spec: every component key of the Document, i.e. the
anchors the Document Serializer can define. -/
def definedKeys (c : AppConfig) : List String :=
  entryKeys c.schemas ++ entryKeys c.tools ++ entryKeys c.guardrails
    ++ entryKeys c.agents ++ entryKeys c.prompts ++ entryKeys c.variables_
    ++ entryKeys c.service_principals ++ entryKeys c.retrievers
    ++ entryKeys c.middleware
    ++ (match c.resources with
        | none => []
        | some r =>
          entryKeys r.llms ++ entryKeys r.genie_rooms ++ entryKeys r.vector_stores
            ++ entryKeys r.functions ++ entryKeys r.warehouses
            ++ entryKeys r.connections ++ entryKeys r.databases
            ++ entryKeys r.tables ++ entryKeys r.volumes)

/-- Every component value of the Document, in the order the sections are
serialized. -/
def allValues (c : AppConfig) : List Json :=
  entryVals c.schemas ++ entryVals c.tools ++ entryVals c.guardrails
    ++ entryVals c.agents ++ entryVals c.prompts ++ entryVals c.variables_
    ++ entryVals c.service_principals ++ entryVals c.retrievers
    ++ entryVals c.middleware
    ++ (match c.resources with
        | none => []
        | some r =>
          entryVals r.llms ++ entryVals r.genie_rooms ++ entryVals r.vector_stores
            ++ entryVals r.functions ++ entryVals r.warehouses
            ++ entryVals r.connections ++ entryVals r.databases
            ++ entryVals r.tables ++ entryVals r.volumes)
    ++ (match c.memory with
        | none => []
        | some m => (match m.checkpointer with | none => [] | some j => [j])
            ++ (match m.store with | none => [] | some j => [j]))
    ++ (match c.app with | none => [] | some a => [a])

/-- Every alias reference site in the Document. -/
def allAliasRefs (c : AppConfig) : List String :=
  ((allValues c).map aliasRefs).flatten

/-- The failure a re-parse of the serialized clone can raise: an alias
whose anchor no longer exists, or any other serialization fault carrying
a raw message. -/
inductive RoundTripError where
  | undefinedAlias (name : String)
  | fault (msg : String)
deriving DecidableEq

instance : DecidableEq (Except RoundTripError Unit) := fun a b =>
  match a, b with
  | .ok x, .ok y => .isTrue (by cases x; cases y; rfl)
  | .error x, .error y => if h : x = y then .isTrue (by rw [h]) else .isFalse (by simp [h])
  | .ok _, .error _ => .isFalse (by simp)
  | .error _, .ok _ => .isFalse (by simp)

/-- The `error.message` string of a round-trip failure, matching the
undefined-alias wording the regex in `validateConfig` looks for. -/
def errMessage : RoundTripError → String
  | .undefinedAlias n => "undefined alias \"" ++ n ++ "\""
  | .fault m => m

/-- Modelled from the spec: `generateYAML` followed by `yaml.load`
(neither is under src/). Serialization emits an anchor for every defined
component and an alias at every reference site; re-parsing fails with an
undefined-alias error at the first alias whose key is no longer a defined
component, and succeeds otherwise. -/
def roundTrip (c : AppConfig) : Except RoundTripError Unit :=
  match (allAliasRefs c).find? (fun k => !((definedKeys c).contains k)) with
  | some k => .error (.undefinedAlias k)
  | none => .ok ()

/-- The Diagnostic the `catch` block of `validateConfig` builds from a
round-trip failure: the regex `/undefined alias "([^"]+)"/i` extracts the
dangling referent's name (one or more characters) and produces the
remove-the-reference message; any other message is wrapped as a generic
validation failure. -/
def caughtDiag : RoundTripError → String
  | .undefinedAlias n =>
    if n ≠ "" then
      "This component is referenced by \"" ++ n ++ "\". Remove that reference first."
    else "Validation failed: " ++ errMessage (.undefinedAlias n)
  | .fault m => "Validation failed: " ++ m

/-- Embeds `validateConfig` from the safe-delete utility: round-trips the
Document through serialization and re-parse, returns `none` on success
and a Diagnostic built by the `catch` block on any failure. -/
def validateConfig (config : AppConfig) : Option String :=
  match roundTrip config with
  | .ok _ => none
  | .error e => some (caughtDiag e)

/-- Embeds `validateDeletion` from the safe-delete utility: deep-clone the
Document, apply the trial deletion for the lower-cased component type
(`default` tolerates an unknown type and allows the deletion), then
validate the clone. -/
def validateDeletion (config : AppConfig) (componentType componentKey : String) :
    Option String :=
  let testConfig := cloneConfig config
  match deleteByType testConfig (strLower componentType) componentKey with
  | none => none
  | some tc => validateConfig tc

/-- State-passing form of `validateDeletion`: alongside the Diagnostic it
returns the live Document as the code leaves it. The code reads the live
Document once to build `testConfig` and every subsequent `delete` targets
the clone, so the live value is handed back untouched. -/
def validateDeletionSt (config : AppConfig) (componentType componentKey : String) :
    Option String × AppConfig :=
  let testConfig := cloneConfig config
  match deleteByType testConfig (strLower componentType) componentKey with
  | none => (none, config)
  | some tc => (validateConfig tc, config)

/-- One call to the notification collaborator
(`addNotification(level, title, details?)`). -/
structure Notif where
  level : String
  title : String
  details : Option String
deriving DecidableEq

/-- Observable outcome of one `safeDelete` call: the returned boolean,
whether the deletion callback was invoked, and the notifications
surfaced, in order. -/
structure DeleteOutcome where
  ok : Bool
  invoked : Bool
  notifs : List Notif
deriving DecidableEq

/-- JavaScript truthiness of the `string | null` Diagnostic, as tested by
`if (error)` in `safeDelete`. -/
def jsTruthyDiag : Option String → Bool
  | some s => s != ""
  | none => false

/-- Embeds `safeDelete` from the safe-delete utility. The live Document is
passed explicitly (the code reads it from the config store); the deletion
callback is modelled by its observable behavior — `.ok ()` returns
normally, `.error m` throws an `Error` whose message is `m`. Validation
runs first; a truthy Diagnostic blocks the deletion, otherwise the
callback runs inside `try` and an exception is converted into a failure
notification. -/
def safeDelete (config : AppConfig) (componentType componentKey : String)
    (deleteAction : Except String Unit) : DeleteOutcome :=
  let error := validateDeletion config componentType componentKey
  if jsTruthyDiag error then
    { ok := false, invoked := false,
      notifs := [⟨"error",
        "Cannot delete " ++ componentType ++ " \"" ++ componentKey ++ "\"",
        some (error.getD "")⟩] }
  else
    match deleteAction with
    | .ok _ =>
      { ok := true, invoked := true,
        notifs := [⟨"success",
          componentType ++ " \"" ++ componentKey ++ "\" deleted", none⟩] }
    | .error m =>
      { ok := false, invoked := true,
        notifs := [⟨"error",
          "Failed to delete " ++ componentType ++ " \"" ++ componentKey ++ "\"",
          some m⟩] }

/-- Lexicographic comparison of character lists by code point. -/
def charsLt : List Char → List Char → Bool
  | [], [] => false
  | [], _ :: _ => true
  | _ :: _, [] => false
  | c :: cs, d :: ds =>
    if c.toNat < d.toNat then true
    else if d.toNat < c.toNat then false
    else charsLt cs ds

/-- Lexicographic string order used for the stable key ordering. -/
def keyLt (a b : String) : Bool := charsLt a.data b.data

/-- Insertion of one member into a key-sorted member list (any fixed total
order on keys gives the spec's stable key ordering; lexicographic order
is used). -/
def insertByKey (kv : String × Json) : List (String × Json) → List (String × Json)
  | [] => [kv]
  | x :: xs => if keyLt kv.1 x.1 then kv :: x :: xs else x :: insertByKey kv xs

/-- Key-sorting of a member list by insertion. -/
def sortEntries : List (String × Json) → List (String × Json)
  | [] => []
  | x :: xs => insertByKey x (sortEntries xs)

mutual

/-- Follows the spec's words, not the source: canonical deterministic
serialization with stable key ordering — mappings are recursively
canonicalized and key-sorted, sequences keep their order. Two values are
deep-structurally equal up to mapping key order exactly when their
canonical forms coincide. -/
def canon : Json → Json
  | .nul => .nul
  | .b x => .b x
  | .num n => .num n
  | .str s => .str s
  | .arr es => .arr (canonArr es)
  | .obj ms => .obj (sortEntries (canonObj ms))

/-- Canonical forms of a list of array elements. -/
def canonArr : List Json → List Json
  | [] => []
  | e :: es => canon e :: canonArr es

/-- Canonical forms of a list of object members (values only; sorting
happens in `canon`). -/
def canonObj : List (String × Json) → List (String × Json)
  | [] => []
  | (k, v) :: ms => (k, canon v) :: canonObj ms

end

/-- Follows the spec's words, not the source: deep structural equality
that is order-independent for mappings and order-dependent for sequences,
via canonical forms. -/
def specStructEq (a b : Json) : Bool :=
  decide (canon a = canon b)

/-- An empty Document (every section absent). -/
def cfgEmpty : AppConfig := {}

/-- An LLM component whose `name` field is `shared-endpoint` and whose key
is `gpt_a`. -/
def llmNameOnly : Json := .obj [("name", .str "shared-endpoint")]

/-- An agent whose `model` field is the bare string `shared-endpoint` —
the `name` field, not the key, of `llmNameOnly`. -/
def agBare : Json := .obj [("model", .str "shared-endpoint")]

/-- A Document in which the agent `assistant` references the LLM `gpt_a`
by its human-readable `name` field. -/
def cfgBareName : AppConfig :=
  { resources := some { llms := some [("gpt_a", llmNameOnly)] },
    agents := some [("assistant", agBare)] }

/-- An agent whose `model` field is the alias marker `*gpt`. -/
def agAlias : Json := .obj [("model", .str "*gpt")]

/-- A Document in which the agent `a1` references the LLM `gpt` by the
alias marker. -/
def cfgAliasRef : AppConfig :=
  { resources := some { llms := some [("gpt", .obj [("name", .str "e")])] },
    agents := some [("a1", agAlias)] }

/-- The test clone of `cfgAliasRef` after the trial deletion of the LLM
`gpt`: the alias site in `a1` now dangles. -/
def cfgAliasRefDel : AppConfig :=
  { resources := some { llms := some [] },
    agents := some [("a1", agAlias)] }

/-- The Diagnostic `validateDeletion cfgAliasRef "llm" "gpt"` produces. -/
def msgGpt : String :=
  "This component is referenced by \"gpt\". Remove that reference first."

/-- An LLM value whose members are written in the order `a`, `b`. -/
def rOrd : Json := .obj [("a", .num 1), ("b", .num 2)]

/-- The same mapping as `rOrd` with its members in the opposite order. -/
def vPerm : Json := .obj [("b", .num 2), ("a", .num 1)]

/-- A Document configuring the LLM `k0` with value `rOrd`. -/
def cfgOrd : AppConfig := { resources := some { llms := some [("k0", rOrd)] } }

/-- LLM `gpt_a` of the name-collision scenario: endpoint name shared,
temperature 0. -/
def llmA : Json := .obj [("name", .str "shared-endpoint"), ("temperature", .num 0)]

/-- LLM `gpt_b` of the name-collision scenario: same endpoint name,
temperature 1. -/
def llmB : Json := .obj [("name", .str "shared-endpoint"), ("temperature", .num 1)]

/-- The name-collision Document: two LLMs sharing a `name`, one agent
holding the full expanded object of `gpt_a` in its `model` field. -/
def cfgShared : AppConfig :=
  { resources := some { llms := some [("gpt_a", llmA), ("gpt_b", llmB)] },
    agents := some [("assistant", .obj [("model", llmA)])] }
mutual

/-- The deep copy is structurally identical to its input. -/
theorem jsonClone_id : ∀ j, jsonClone j = j
  | .nul => rfl
  | .b _ => rfl
  | .num _ => rfl
  | .str _ => rfl
  | .arr es => by simp [jsonClone, cloneArr_id es]
  | .obj ms => by simp [jsonClone, cloneObj_id ms]

/-- List version of `jsonClone_id` for array elements. -/
theorem cloneArr_id : ∀ es : List Json, cloneArr es = es
  | [] => rfl
  | e :: es => by simp [cloneArr, jsonClone_id e, cloneArr_id es]

/-- List version of `jsonClone_id` for object members. -/
theorem cloneObj_id : ∀ ms : List (String × Json), cloneObj ms = ms
  | [] => rfl
  | (k, v) :: ms => by simp [cloneObj, jsonClone_id v, cloneObj_id ms]

end

/-- Cloning one section is the identity at value level. -/
theorem cloneEntries_id (ms : Entries) : cloneEntries ms = ms :=
  cloneObj_id ms

/-- Helper: mapping a clone over an optional section is the identity. -/
theorem optClone_id (o : Option Entries) : o.map cloneEntries = o := by
  cases o with
  | none => rfl
  | some ms => simp [cloneEntries_id]

/-- Helper: mapping a pointwise-identity function over an `Option` is the
identity. -/
theorem optMap_id {α : Type} (f : α → α) (h : ∀ a, f a = a) (o : Option α) :
    o.map f = o := by
  cases o <;> simp [h]

/-- Cloning the `resources` section is the identity at value level. -/
theorem cloneResources_id (r : Resources) : cloneResources r = r := by
  cases r
  simp [cloneResources, optClone_id]

/-- Cloning the `memory` section is the identity at value level. -/
theorem cloneMemory_id (m : MemoryCfg) : cloneMemory m = m := by
  cases m with
  | mk cp st => cases cp <;> cases st <;> simp [cloneMemory, jsonClone_id]

/-- The Document deep copy is structurally identical to the original. -/
theorem cloneConfig_id (c : AppConfig) : cloneConfig c = c := by
  simp [cloneConfig, optClone_id, optMap_id cloneResources cloneResources_id,
    optMap_id cloneMemory cloneMemory_id, optMap_id jsonClone jsonClone_id]


/-- A string of positive length is not empty. -/
theorem strLenPos_ne_empty (s : String) (h : 0 < s.length) : s ≠ "" := by
  intro he
  rw [he] at h
  have h0 : ("" : String).length = 0 := rfl
  omega

/-- Every Diagnostic built by the `catch` block of `validateConfig` is a
non-empty — hence JavaScript-truthy — string. -/
theorem caughtDiag_ne_empty (e : RoundTripError) : caughtDiag e ≠ "" := by
  cases e with
  | undefinedAlias n =>
    by_cases hn : n = ""
    · subst hn
      decide
    · simp only [caughtDiag, if_pos (by exact hn : n ≠ "")]
      apply strLenPos_ne_empty
      simp [String.length_append]
      have : ("This component is referenced by \"" : String).length = 33 := rfl
      omega
  | fault m =>
    simp only [caughtDiag]
    apply strLenPos_ne_empty
    simp [String.length_append]
    have : ("Validation failed: " : String).length = 19 := rfl
    omega

/-- A Diagnostic returned by `validateDeletion` is never the empty
string, so JavaScript truthiness agrees with presence. -/
theorem validateDeletion_diag_ne_empty (c : AppConfig) (t k : String) :
    ∀ m, validateDeletion c t k = some m → m ≠ "" := by
  intro m hm
  simp only [validateDeletion] at hm
  cases hd : deleteByType (cloneConfig c) (strLower t) k with
  | none => rw [hd] at hm; exact absurd hm (by simp)
  | some tc =>
    rw [hd] at hm
    simp only [validateConfig] at hm
    cases hr : roundTrip tc with
    | ok u => rw [hr] at hm; exact absurd hm (by simp)
    | error e =>
      rw [hr] at hm
      have : m = caughtDiag e := by
        have := hm
        simp at this
        exact this.symm
      rw [this]
      exact caughtDiag_ne_empty e

/-- The scalar classification accepts a string exactly when it is one of
the three key-based encodings. Shared by the C1 and C3 theorems. -/
theorem valueContainsRef_str_iff (s refKey : String) :
    valueContainsRef (.str s) refKey = true ↔
      s = "__REF__" ++ refKey ∨ s = "*" ++ refKey ∨ s = refKey := by
  simp only [valueContainsRef]
  by_cases h1 : s = "__REF__" ++ refKey ∨ s = "*" ++ refKey
  · simp [h1]
    tauto
  · by_cases h2 : s = refKey
    · simp [h1, h2]
    · simp [h1, h2]

/-- Expanded-object matching succeeds whenever the candidate passes the
object guard and equals the configured, truthy resource exactly
(including member order). Shared by the C1 and C2 theorems. -/
theorem objectMatchesKey_eq_true_of (v r : Json) (c : AppConfig) (rt k : String)
    (hres : configuredResource c rt k = some r) (htr : jsTruthy r = true)
    (hobj : isObjLike v = true) (heq : v = r) :
    objectMatchesKey v k c rt = true := by
  subst heq
  simp [objectMatchesKey, hres, htr, hobj]

/-- The `default` arm of the `validateDeletion` switch: a lower-cased type
outside the sixteen modeled ones deletes nothing and updates nothing. -/
theorem deleteByType_none_of_unknown (c : AppConfig) (tl k : String)
    (h : tl ∉ knownTypes) : deleteByType c tl k = none := by
  simp only [knownTypes, List.mem_cons, List.not_mem_nil, or_false, not_or] at h
  obtain ⟨h1, h2, h3, h4, h5, h6, h7, h8, h9, h10, h11, h12, h13, h14, h15, h16⟩ := h
  simp [deleteByType, h1, h2, h3, h4, h5, h6, h7, h8, h9, h10, h11, h12, h13, h14, h15, h16]

/-- C1 (counterexample). In `cfgBareName` the agent `assistant` has its
`model` field set to the bare string `shared-endpoint`, which equals the
`name` field of the LLM `gpt_a` — one of the claim's four reference
encodings. Yet `findLlmDependencies` returns no record at all, and
`validateDeletion` (under the spec-modelled round trip) returns no
Diagnostic either, refuting the claim at this input. -/
theorem findLlmDependencies_name_string_missed :
    jsGet llmNameOnly "name" = some (.str "shared-endpoint")
    ∧ jsGet agBare "model" = some (.str "shared-endpoint")
    ∧ cfgBareName.agents = some [("assistant", agBare)]
    ∧ findLlmDependencies cfgBareName "gpt_a" = []
    ∧ validateDeletion cfgBareName "llm" "gpt_a" = none := by
  decide

/-- C1 (amended). For the Dependency-Finder-modeled `(agent, model, llm)`
field: whenever an agent's `model` field holds the wrapped marker, the
alias marker, the bare string equal to the LLM's key, or an expanded
object exactly equal to the LLM's configured (truthy) value, the LLM's
dependency finder returns a record naming that agent via `model`. Bare
strings equal only to the LLM's `name` field are not recognized. -/
theorem findLlmDependencies_agent_model_complete
    (c : AppConfig) (llmKey agentKey : String) (ags : Entries) (agent model : Json)
    (hags : c.agents = some ags)
    (hmem : (agentKey, agent) ∈ ags)
    (hmodel : jsGet agent "model" = some model)
    (henc : model = .str ("__REF__" ++ llmKey) ∨ model = .str ("*" ++ llmKey)
        ∨ model = .str llmKey
        ∨ (isObjLike model = true ∧
            ∃ r, configuredResource c "llm" llmKey = some r
              ∧ jsTruthy r = true ∧ model = r)) :
    (⟨"agent", agentKey, "model"⟩ : DependencyInfo) ∈ findLlmDependencies c llmKey := by
  have hcond : (valueContainsRefOpt (jsGet agent "model") llmKey
      || objectMatchesKeyOpt (jsGet agent "model") llmKey c "llm") = true := by
    rw [hmodel]
    rcases henc with h | h | h | ⟨hobj, r, hres, htr, heq⟩
    · subst h
      simp only [valueContainsRefOpt, Bool.or_eq_true]
      exact Or.inl ((valueContainsRef_str_iff _ _).mpr (Or.inl rfl))
    · subst h
      simp only [valueContainsRefOpt, Bool.or_eq_true]
      exact Or.inl ((valueContainsRef_str_iff _ _).mpr (Or.inr (Or.inl rfl)))
    · subst h
      simp only [valueContainsRefOpt, Bool.or_eq_true]
      exact Or.inl ((valueContainsRef_str_iff _ _).mpr (Or.inr (Or.inr rfl)))
    · simp only [objectMatchesKeyOpt, Bool.or_eq_true]
      exact Or.inr (objectMatchesKey_eq_true_of model r c "llm" llmKey hres htr hobj heq)
  unfold findLlmDependencies
  apply List.mem_append_left
  apply List.mem_append_left
  apply List.mem_append_left
  apply List.mem_append_left
  unfold llmAgentDeps
  rw [hags, List.mem_filterMap]
  exact ⟨(agentKey, agent), hmem, by simp [hcond]⟩

/-- C1 (witness for the amended theorem): in `cfgAliasRef` the agent `a1`
holds the alias marker `*gpt` in its `model` field, and the finder
reports it. -/
theorem findLlmDependencies_agent_model_complete_witness :
    cfgAliasRef.agents = some [("a1", agAlias)]
    ∧ jsGet agAlias "model" = some (.str ("*" ++ "gpt"))
    ∧ (⟨"agent", "a1", "model"⟩ : DependencyInfo) ∈ findLlmDependencies cfgAliasRef "gpt" :=
  ⟨rfl, by decide,
    findLlmDependencies_agent_model_complete cfgAliasRef "gpt" "a1" [("a1", agAlias)]
      agAlias (.str ("*" ++ "gpt")) rfl (by decide) (by decide) (Or.inr (Or.inl rfl))⟩

/-- C2 (counterexample). `vPerm` is deep-structurally equal to the
configured value `rOrd` of LLM `k0` up to mapping key order (their
canonical forms coincide), yet `objectMatchesKey` — which compares
`JSON.stringify` output, hence member order — returns `false`. -/
theorem objectMatchesKey_order_sensitive :
    specStructEq vPerm rOrd = true
    ∧ configuredResource cfgOrd "llm" "k0" = some rOrd
    ∧ vPerm ≠ rOrd
    ∧ objectMatchesKey vPerm "k0" cfgOrd "llm" = false := by
  decide

/-- C2 (amended). Expanded-object matching is order-dependent for
mappings: `objectMatchesKey` returns `true` when the candidate value
equals the configured component's value exactly, including mapping member
order — the equality `JSON.stringify` comparison detects. -/
theorem objectMatchesKey_of_exact_eq (v r : Json) (c : AppConfig) (rt k : String)
    (hres : configuredResource c rt k = some r) (htr : jsTruthy r = true)
    (hobj : isObjLike v = true) (heq : v = r) :
    objectMatchesKey v k c rt = true :=
  objectMatchesKey_eq_true_of v r c rt k hres htr hobj heq

/-- C2 (witness): the configured value `rOrd` of `k0` matches itself. -/
theorem objectMatchesKey_of_exact_eq_witness :
    configuredResource cfgOrd "llm" "k0" = some rOrd
    ∧ objectMatchesKey rOrd "k0" cfgOrd "llm" = true :=
  ⟨by decide,
    objectMatchesKey_of_exact_eq rOrd rOrd cfgOrd "llm" "k0" (by decide) (by decide)
      (by decide) rfl⟩

/-- C3 (counterexample). The component `llmNameOnly` has key `gpt_a` and
`name` field `shared-endpoint`; the claim says the bare string
`shared-endpoint` is recognized as a reference to it, but
`valueContainsRef` rejects it — the `name` field is never consulted. -/
theorem valueContainsRef_ignores_name_field :
    jsGet llmNameOnly "name" = some (.str "shared-endpoint")
    ∧ "shared-endpoint" ≠ "gpt_a"
    ∧ valueContainsRef (.str "shared-endpoint") "gpt_a" = false := by
  decide

/-- C3 (amended). `valueContainsRef` recognizes a string s as a reference
to the component with key k exactly when s is the wrapped marker
`__REF__` + k, the alias marker `*` + k, or k itself — the component's
`name` field plays no part. -/
theorem valueContainsRef_characterization (s refKey : String) :
    valueContainsRef (.str s) refKey = true ↔
      s = "__REF__" ++ refKey ∨ s = "*" ++ refKey ∨ s = refKey :=
  valueContainsRef_str_iff s refKey

/-- C4. `validateDeletion` is total: for every Document and every
component type and key it returns `none` or a Diagnostic, and the one
fallible step — serializing and re-parsing the test clone — has each of
its failures caught and converted into the returned Diagnostic built by
the `catch` block; no failure escapes. -/
theorem validateDeletion_total_and_catches (c : AppConfig) (t k : String) :
    (deleteByType (cloneConfig c) (strLower t) k = none → validateDeletion c t k = none) ∧
    ∀ tc, deleteByType (cloneConfig c) (strLower t) k = some tc →
      (roundTrip tc = .ok () → validateDeletion c t k = none) ∧
      ∀ e, roundTrip tc = .error e → validateDeletion c t k = some (caughtDiag e) := by
  constructor
  · intro h
    simp [validateDeletion, h]
  · intro tc htc
    constructor
    · intro hok
      simp [validateDeletion, htc, validateConfig, hok]
    · intro e he
      simp [validateDeletion, htc, validateConfig, he]

/-- C4 (witness): deleting the LLM `gpt` from `cfgAliasRef` leaves the
alias site `*gpt` dangling; the round-trip failure is caught and returned
as a Diagnostic. -/
theorem validateDeletion_total_and_catches_witness :
    deleteByType (cloneConfig cfgAliasRef) (strLower "llm") "gpt" = some cfgAliasRefDel
    ∧ roundTrip cfgAliasRefDel = .error (.undefinedAlias "gpt")
    ∧ validateDeletion cfgAliasRef "llm" "gpt" = some (caughtDiag (.undefinedAlias "gpt")) :=
  ⟨by decide, by decide,
    ((validateDeletion_total_and_catches cfgAliasRef "llm" "gpt").2 cfgAliasRefDel
      (by decide)).2 (.undefinedAlias "gpt") (by decide)⟩

/-- C5. `validateDeletion` never mutates its input: in the state-passing
form the live Document comes back exactly as it went in — every
`delete` statement targets the test clone — and the clone itself is a
deep copy structurally identical to the original while sharing no
structure with it (it is rebuilt node by node). -/
theorem validateDeletion_preserves_document (c : AppConfig) (t k : String) :
    (validateDeletionSt c t k).2 = c ∧ cloneConfig c = c := by
  refine ⟨?_, cloneConfig_id c⟩
  simp only [validateDeletionSt]
  cases deleteByType (cloneConfig c) (strLower t) k <;> rfl

/-- C6. A component type whose lower-casing is outside the sixteen
modeled ones hits the `default` arm of the switch: the deletion is
allowed as a no-op (`none`), not rejected. -/
theorem validateDeletion_unknown_type_allows (c : AppConfig) (t k : String)
    (h : strLower t ∉ knownTypes) : validateDeletion c t k = none := by
  have hd := deleteByType_none_of_unknown (cloneConfig c) (strLower t) k h
  simp [validateDeletion, hd]

/-- C6 (witness): `widget` is not a modeled component type, and deleting
a `Widget` is allowed on any Document. -/
theorem validateDeletion_unknown_type_allows_witness :
    strLower "Widget" ∉ knownTypes ∧ validateDeletion cfgEmpty "Widget" "x" = none :=
  ⟨by decide, validateDeletion_unknown_type_allows cfgEmpty "Widget" "x" (by decide)⟩

/-- C7. `safeDelete` validates before committing: a Diagnostic from
`validateDeletion` (always a truthy string) blocks the deletion — the
callback is not invoked, an error notification carries the Diagnostic,
and `false` is returned; with no Diagnostic the callback is invoked, a
normal return yields a success notification and `true`, and a thrown
exception yields a failure notification and `false`. -/
theorem safeDelete_validate_then_commit (c : AppConfig) (t k : String)
    (act : Except String Unit) :
    (∀ m, validateDeletion c t k = some m →
        safeDelete c t k act =
          ⟨false, false,
            [⟨"error", "Cannot delete " ++ t ++ " \"" ++ k ++ "\"", some m⟩]⟩) ∧
    (validateDeletion c t k = none →
        (act = .ok () →
          safeDelete c t k act =
            ⟨true, true, [⟨"success", t ++ " \"" ++ k ++ "\" deleted", none⟩]⟩) ∧
        ∀ m, act = .error m →
          safeDelete c t k act =
            ⟨false, true,
              [⟨"error", "Failed to delete " ++ t ++ " \"" ++ k ++ "\"", some m⟩]⟩) := by
  constructor
  · intro m hm
    have hne : m ≠ "" := validateDeletion_diag_ne_empty c t k m hm
    simp [safeDelete, hm, jsTruthyDiag, bne_iff_ne, hne]
  · intro hn
    constructor
    · intro ha
      subst ha
      simp [safeDelete, hn, jsTruthyDiag]
    · intro m ha
      subst ha
      simp [safeDelete, hn, jsTruthyDiag]

/-- C7 (witness): on `cfgAliasRef`, deleting the referenced LLM `gpt` is
blocked — the callback is not run, the error is surfaced, and `false` is
returned. -/
theorem safeDelete_validate_then_commit_witness :
    validateDeletion cfgAliasRef "llm" "gpt" = some msgGpt
    ∧ safeDelete cfgAliasRef "llm" "gpt" (.ok ()) =
        ⟨false, false,
          [⟨"error", "Cannot delete " ++ "llm" ++ " \"" ++ "gpt" ++ "\"", some msgGpt⟩]⟩ :=
  ⟨by decide,
    (safeDelete_validate_then_commit cfgAliasRef "llm" "gpt" (.ok ())).1 msgGpt (by decide)⟩

/-- C8. `objectMatchesKey` is total and returns `false` both when no
component with the given key is configured under the category (including
unmodeled categories) and when the candidate value fails the object
guard (scalars and `null`). -/
theorem objectMatchesKey_total_on_missing (v : Json) (k : String) (c : AppConfig)
    (rt : String) :
    (configuredResource c rt k = none → objectMatchesKey v k c rt = false) ∧
    (isObjLike v = false → objectMatchesKey v k c rt = false) := by
  constructor
  · intro h
    cases hobj : isObjLike v <;> simp [objectMatchesKey, h, hobj]
  · intro h
    simp [objectMatchesKey, h]

/-- C8 (witness): on the empty Document no LLM `k` exists, and matching
returns `false` for a string candidate. -/
theorem objectMatchesKey_total_on_missing_witness :
    configuredResource cfgEmpty "llm" "k" = none
    ∧ objectMatchesKey (.str "x") "k" cfgEmpty "llm" = false :=
  ⟨rfl, (objectMatchesKey_total_on_missing (.str "x") "k" cfgEmpty "llm").1 rfl⟩

/-- C9. Name collisions produce no false positive: in `cfgShared` the
LLMs `gpt_a` and `gpt_b` share the `name` `shared-endpoint` but differ in
`temperature`; the agent holds `gpt_a`'s full expanded object, so the
finder reports the agent for `gpt_a` and nothing for `gpt_b`. -/
theorem findLlmDependencies_no_name_collision :
    jsGet llmA "name" = some (.str "shared-endpoint")
    ∧ jsGet llmB "name" = some (.str "shared-endpoint")
    ∧ llmA ≠ llmB
    ∧ cfgShared.agents = some [("assistant", .obj [("model", llmA)])]
    ∧ findLlmDependencies cfgShared "gpt_b" = []
    ∧ findLlmDependencies cfgShared "gpt_a" = [⟨"agent", "assistant", "model"⟩] := by
  decide

/-- C10. `memory` is absent from the switch of `validateDeletion`, so
deleting the Memory component is never blocked: validation returns
`none` for every Document and key, and `safeDelete` — as the Memory
section's delete handler calls it — always invokes the deletion
callback, whether or not it then throws. -/
theorem memory_deletion_never_blocked (c : AppConfig) (k : String)
    (act : Except String Unit) :
    validateDeletion c "Memory" k = none
    ∧ (safeDelete c "Memory" k act).invoked = true := by
  have hlow : strLower "Memory" = "memory" := by decide
  have hnone : deleteByType (cloneConfig c) (strLower "Memory") k = none := by
    rw [hlow]
    exact deleteByType_none_of_unknown (cloneConfig c) "memory" k (by decide)
  have hval : validateDeletion c "Memory" k = none := by
    simp [validateDeletion, hnone]
  refine ⟨hval, ?_⟩
  cases act <;> simp [safeDelete, hval, jsTruthyDiag]
